import Mathlib

/-!
Shallow embedding of the layered frame-buffer compositing pipeline of
`src/graphic/mod.rs` (a bare-metal kernel's graphics module), together with
theorems settling the frozen claims about it.

Embedding conventions:
* `usize` grid coordinates are `Nat`; the fixed screen constants `WIDTH`/`HEIGHT`
  are the source constants 800/600.
* A layer's pixel store `Vec<Vec<(Rgb888, bool)>>` (respectively the hardware
  buffer `[[Volatile<Rgb888>; WIDTH]; HEIGHT]`) is embedded as a total function
  `Nat → Nat → Cell` (respectively `Nat → Nat → Rgb888`); imperative writes
  become pointwise function overrides and Rust `for` loops become `List.foldl`
  over the corresponding index ranges, in the source's iteration order.
* `i32` arithmetic and `as usize` casts in `Writer::move_to` are modelled
  exactly, with wrap-around at 2^32 (release-mode wrapping subtraction) and
  sign-extending reinterpretation at 2^64.
* External decoders (tinybmp, rusttype) are out of scope per the spec: drawing
  routines take the decoder's output (header channel masks, pixel list, glyph
  coverage samples) as an explicit argument, and `f32` quantities that the
  source derives from decoded data (normalized alpha, glyph coverage) are
  modelled as exact rationals.
* The Rust `while` loops deriving channel shifts can diverge; they are embedded
  fuel-indexed, `none` meaning the loop has not finished within the fuel.
-/

namespace BlogOS

/-- Screen width in pixels, from `pub const WIDTH: usize = 800`. -/
def WIDTH : Nat := 800

/-- Screen height in pixels, from `pub const HEIGHT: usize = 600`. -/
def HEIGHT : Nat := 600

/-- A 24-bit truecolor pixel, the `embedded_graphics` `Rgb888` color type. -/
structure Rgb888 where
  r : Nat
  g : Nat
  b : Nat
deriving DecidableEq

/-- The default (black) color, from `const DEFAULT_RGB888: Rgb888 = Rgb888::new(0, 0, 0)`. -/
def DEFAULT_RGB888 : Rgb888 := ⟨0, 0, 0⟩

/-- One layer cell: `(Rgb888, bool)` — stored color plus occupancy flag. -/
abbrev Cell := Rgb888 × Bool

/-- A two-dimensional pixel store indexed `[row][col]`, embedded as a total
function on coordinates. -/
abbrev Grid (α : Type) := Nat → Nat → α

/-- A layer's pixel store (`data: Vec<Vec<(Rgb888, bool)>>`). -/
abbrev GridF := Grid Cell

/-- The hardware-backed surface (`chars: [[Volatile<Rgb888>; WIDTH]; HEIGHT]`). -/
abbrev Surf := Grid Rgb888

/-- A single imperative store `grid[x][y] = c`, as a pointwise override. -/
def setAt {α : Type} (g : Grid α) (x y : Nat) (c : α) : Grid α :=
  fun i j => if i = x ∧ j = y then c else g i j

/-- A Rust `for i in a..b` loop threading state through a fold. -/
def forRange {α : Type} (a b : Nat) (f : α → Nat → α) (s : α) : α :=
  (List.range' a (b - a)).foldl f s

/-- The `Writer` layer type: per-cell `(color, occupied)` data plus the
layer-level `enable` flag. -/
structure Writer where
  data : GridF
  enable : Bool

/-- The state `Writer::new()` builds: every cell `(DEFAULT_RGB888, false)`,
`enable = false`. -/
def Writer.new : Writer := ⟨fun _ _ => (DEFAULT_RGB888, false), false⟩

namespace Writer

/-- `Writer::display_pixel` — the unchecked store `self.data[x][y] = (color, true)`.
Acts on the layer's `data` grid. -/
def display_pixel (g : GridF) (x y : Nat) (color : Rgb888) : GridF :=
  setAt g x y (color, true)

/-- `Writer::display_pixel_safe` — writes `(color, true)` only when
`x < HEIGHT && y < WIDTH`, otherwise leaves the layer untouched. -/
def display_pixel_safe (g : GridF) (x y : Nat) (color : Rgb888) : GridF :=
  if x < HEIGHT ∧ y < WIDTH then setAt g x y (color, true) else g

/-- `Writer::display_rect` — clamps `x + h` against `HEIGHT` and `y + w` against
`WIDTH` (`min`), then overwrites every covered cell with `(color, true)`. -/
def display_rect (g : GridF) (x y w h : Nat) (color : Rgb888) : GridF :=
  let x_end := min (x + h) HEIGHT
  let y_end := min (y + w) WIDTH
  forRange x x_end (fun g i =>
    forRange y y_end (fun g j => setAt g i j (color, true)) g) g

end Writer

/-! ### Generic characterization of the row/column double loops

Every region loop in the source has the shape
`for x in sx..ex { for y in sy..ey { grid[x][y] = upd(x, y, grid[x][y]) } }`
where the stored value depends only on the cell being written (plus read-only
data).  The next lemmas characterize such loops pointwise. -/

/-- Inner column loop: folding `setAt` along a contiguous column range, the new
value at each written cell coming from that same cell of the current state. -/
theorem foldl_cols_apply {α : Type} (x : Nat) (upd : Nat → Nat → α → α) :
    ∀ (n a : Nat) (g : Grid α) (i j : Nat),
      ((List.range' a n).foldl (fun s y => setAt s x y (upd x y (s x y))) g) i j
        = if i = x ∧ a ≤ j ∧ j < a + n then upd x j (g x j) else g i j := by
  intro n
  induction n with
  | zero =>
    intro a g i j
    simp only [List.range', List.foldl_nil]
    have : ¬ (i = x ∧ a ≤ j ∧ j < a + 0) := by omega
    rw [if_neg this]
  | succ m ih =>
    intro a g i j
    rw [List.range'_succ, List.foldl_cons]
    rw [ih (a + 1) (setAt g x a (upd x a (g x a))) i j]
    by_cases hix : i = x
    · by_cases hja : j = a
      · rw [if_neg (by omega), if_pos (show i = x ∧ a ≤ j ∧ j < a + (m + 1) by omega)]
        simp [setAt, hix, hja]
      · by_cases hj2 : a ≤ j ∧ j < a + (m + 1)
        · rw [if_pos (show i = x ∧ a + 1 ≤ j ∧ j < a + 1 + m by omega),
            if_pos (show i = x ∧ a ≤ j ∧ j < a + (m + 1) by omega)]
          simp only [setAt]
          rw [if_neg (by omega)]
        · rw [if_neg (by omega), if_neg (by omega)]
          simp only [setAt]
          rw [if_neg (by omega)]
    · rw [if_neg (by omega), if_neg (by omega)]
      simp only [setAt]
      rw [if_neg (by omega)]

/-- Full double loop `for x in [a, a+n) { for y in [sy, ey) { … } }`,
characterized pointwise. -/
theorem foldl_rows_apply {α : Type} (upd : Nat → Nat → α → α) (sy ey : Nat) :
    ∀ (n a : Nat) (g : Grid α) (i j : Nat),
      ((List.range' a n).foldl
          (fun s x => (List.range' sy (ey - sy)).foldl
            (fun s y => setAt s x y (upd x y (s x y))) s) g) i j
        = if a ≤ i ∧ i < a + n ∧ sy ≤ j ∧ j < ey then upd i j (g i j) else g i j := by
  intro n
  induction n with
  | zero =>
    intro a g i j
    simp only [List.range', List.foldl_nil]
    rw [if_neg (by omega)]
  | succ m ih =>
    intro a g i j
    rw [List.range'_succ, List.foldl_cons]
    rw [ih (a + 1) _ i j]
    rw [foldl_cols_apply a upd (ey - sy) sy g i j]
    by_cases hix : i = a
    · by_cases hcol : sy ≤ j ∧ j < ey
      · rw [if_neg (show ¬ (a + 1 ≤ i ∧ i < a + 1 + m ∧ sy ≤ j ∧ j < ey) by omega),
          if_pos (show i = a ∧ sy ≤ j ∧ j < sy + (ey - sy) by omega),
          if_pos (show a ≤ i ∧ i < a + (m + 1) ∧ sy ≤ j ∧ j < ey by omega)]
        rw [hix]
      · rw [if_neg (show ¬ (a + 1 ≤ i ∧ i < a + 1 + m ∧ sy ≤ j ∧ j < ey) by omega),
          if_neg (show ¬ (i = a ∧ sy ≤ j ∧ j < sy + (ey - sy)) by omega),
          if_neg (show ¬ (a ≤ i ∧ i < a + (m + 1) ∧ sy ≤ j ∧ j < ey) by omega)]
    · by_cases h5 : a + 1 ≤ i ∧ i < a + 1 + m ∧ sy ≤ j ∧ j < ey
      · rw [if_pos h5,
          if_neg (show ¬ (i = a ∧ sy ≤ j ∧ j < sy + (ey - sy)) by omega),
          if_pos (show a ≤ i ∧ i < a + (m + 1) ∧ sy ≤ j ∧ j < ey by omega)]
      · rw [if_neg h5,
          if_neg (show ¬ (i = a ∧ sy ≤ j ∧ j < sy + (ey - sy)) by omega),
          if_neg (show ¬ (a ≤ i ∧ i < a + (m + 1) ∧ sy ≤ j ∧ j < ey) by omega)]

/-- The `forRange` packaging of the double-loop characterization. -/
theorem forRange2_apply {α : Type} (upd : Nat → Nat → α → α)
    (sx ex sy ey : Nat) (g : Grid α) (i j : Nat) :
    (forRange sx ex (fun s x =>
        forRange sy ey (fun s y => setAt s x y (upd x y (s x y))) s) g) i j
      = if sx ≤ i ∧ i < ex ∧ sy ≤ j ∧ j < ey then upd i j (g i j) else g i j := by
  unfold forRange
  rw [foldl_rows_apply upd sy ey (ex - sx) sx g i j]
  by_cases h : sx ≤ i ∧ i < ex ∧ sy ≤ j ∧ j < ey
  · rw [if_pos (by omega), if_pos h]
  · rw [if_neg (by omega), if_neg h]

/-- Pointwise characterization of `Writer::display_rect`: exactly the cells of
the clamped rectangle `[x, min (x+h) HEIGHT) × [y, min (y+w) WIDTH)` become
`(color, true)`; all others keep their previous value. -/
theorem display_rect_apply (g : GridF) (x y w h : Nat) (color : Rgb888)
    (i j : Nat) :
    Writer.display_rect g x y w h color i j
      = if x ≤ i ∧ i < min (x + h) HEIGHT ∧ y ≤ j ∧ j < min (y + w) WIDTH
        then (color, true) else g i j := by
  unfold Writer.display_rect
  exact forRange2_apply (fun _ _ _ => (color, true)) x (min (x + h) HEIGHT)
    y (min (y + w) WIDTH) g i j

/-- C6: for every in-bounds rectangle (`x + h ≤ HEIGHT`, `y + w ≤ WIDTH`),
`Writer::display_rect(x,y,w,h,c)` sets every cell of `[x, x+h) × [y, y+w)` to
`(c, occupied = true)` and leaves every other cell unchanged; and in general
(rectangles exceeding the bounds included) the written extent is the requested
one clamped against the surface bounds. -/
theorem display_rect_spec (g : GridF) (x y w h : Nat) (c : Rgb888) :
    (x + h ≤ HEIGHT → y + w ≤ WIDTH → ∀ i j,
      ((x ≤ i ∧ i < x + h ∧ y ≤ j ∧ j < y + w →
          Writer.display_rect g x y w h c i j = (c, true)) ∧
       (¬ (x ≤ i ∧ i < x + h ∧ y ≤ j ∧ j < y + w) →
          Writer.display_rect g x y w h c i j = g i j))) ∧
    (∀ i j, Writer.display_rect g x y w h c i j
        = if x ≤ i ∧ i < min (x + h) HEIGHT ∧ y ≤ j ∧ j < min (y + w) WIDTH
          then (c, true) else g i j) := by
  refine ⟨fun hx hy i j => ⟨fun hin => ?_, fun hout => ?_⟩, fun i j => ?_⟩
  · rw [display_rect_apply]
    rw [if_pos (by omega)]
  · rw [display_rect_apply]
    rw [if_neg (by omega)]
  · exact display_rect_apply g x y w h c i j

/-- A sample color used by witnesses and counterexamples (`RED`). -/
def RED : Rgb888 := ⟨255, 0, 0⟩

/-- Witness for C6: painting a 5×5 rectangle at (10,10) on an empty 800×600
layer makes cell (12,11) red-occupied and leaves cell (20,20) untouched. -/
theorem display_rect_spec_witness :
    Writer.display_rect (fun _ _ => (DEFAULT_RGB888, false)) 10 10 5 5 RED 12 11
        = (RED, true) ∧
    Writer.display_rect (fun _ _ => (DEFAULT_RGB888, false)) 10 10 5 5 RED 20 20
        = (DEFAULT_RGB888, false) :=
  ⟨((display_rect_spec (fun _ _ => (DEFAULT_RGB888, false)) 10 10 5 5 RED).1
      (by decide) (by decide) 12 11).1 (by decide),
   ((display_rect_spec (fun _ _ => (DEFAULT_RGB888, false)) 10 10 5 5 RED).1
      (by decide) (by decide) 20 20).2 (by decide)⟩

/-! ### `Writer::move_to` — pan

The source shifts the whole layer by `(dx, dy)` (`i32` arguments), reading
`self.data[(i as i32 - dx) as usize][(j as i32 - dy) as usize]` in place.
Release-mode `i32` subtraction wraps at 2^32 and `as usize` sign-extends the
32-bit value into a 64-bit unsigned one; both casts are modelled exactly. -/

/-- Wrapping `i32` value of an integer: the representative of `z` modulo
4294967296 = 2^32 lying in `[-2147483648, 2147483648)`. -/
def wrap32 (z : Int) : Int := (z + 2147483648) % 4294967296 - 2147483648

/-- The Rust cast `v as usize` of an `i32` value `v`: sign-extending
reinterpretation modulo 18446744073709551616 = 2^64. -/
def usize_of_i32 (z : Int) : Nat := (z % 18446744073709551616).toNat

/-- `Writer::move_to(dx, dy)`: rows are traversed ascending when `dx > 0` and
descending otherwise (`if dx > 0 { 0..HEIGHT } else { (0..HEIGHT).rev() }`),
and likewise per column for `dy`; every destination cell `(i, j)` is assigned
its source cell `(i - dx, j - dy)` when that lands inside the grid, and the
default transparent cell otherwise. -/
def Writer.move_to (g : GridF) (dx dy : Int) : GridF :=
  let x_iter : List Nat :=
    if dx > 0 then List.range HEIGHT else (List.range HEIGHT).reverse
  x_iter.foldl (fun g (i : Nat) =>
    let y_iter : List Nat :=
      if dy > 0 then List.range WIDTH else (List.range WIDTH).reverse
    y_iter.foldl (fun g (j : Nat) =>
      if usize_of_i32 (wrap32 ((i : Int) - dx)) < HEIGHT ∧
          usize_of_i32 (wrap32 ((j : Int) - dy)) < WIDTH then
        setAt g i j (g (usize_of_i32 (wrap32 ((i : Int) - dx)))
          (usize_of_i32 (wrap32 ((j : Int) - dy))))
      else
        setAt g i j (DEFAULT_RGB888, false)) g) g

/-- For a row index `2 ≤ i < 600`, the source-row expression of
`move_to(2, 0)` evaluates to `i - 2`. -/
theorem srcRow_eq {i : Nat} (h2 : 2 ≤ i) (hi : i < 600) :
    usize_of_i32 (wrap32 ((i : Int) - 2)) = i - 2 := by
  unfold usize_of_i32 wrap32
  omega

/-- For a row index `i < 2`, the source-row expression of `move_to(2, 0)` is
the wrapped-around huge value, which fails the `< HEIGHT` bounds test. -/
theorem srcRow_oob {i : Nat} (h : i < 2) :
    ¬ usize_of_i32 (wrap32 ((i : Int) - 2)) < HEIGHT := by
  unfold usize_of_i32 wrap32 HEIGHT
  omega

/-- For a column index `j < 800`, the source-column expression of
`move_to(2, 0)` evaluates to `j` itself. -/
theorem srcCol_eq {j : Nat} (hj : j < 800) :
    usize_of_i32 (wrap32 ((j : Int) - 0)) = j := by
  unfold usize_of_i32 wrap32
  omega

/-- The per-cell body of `move_to` specialized to `dx = 2, dy = 0`. -/
def panBody2 (i : Nat) : GridF → Nat → GridF := fun g j =>
  if usize_of_i32 (wrap32 ((i : Int) - 2)) < HEIGHT ∧
      usize_of_i32 (wrap32 ((j : Int) - 0)) < WIDTH then
    setAt g i j (g (usize_of_i32 (wrap32 ((i : Int) - 2)))
      (usize_of_i32 (wrap32 ((j : Int) - 0))))
  else
    setAt g i j (DEFAULT_RGB888, false)

/-- Effect of the column loop of `move_to(2, 0)` on one row `i ≥ 2`: every
visited cell of row `i` receives the current value of row `i - 2` at the same
column (row `i - 2` itself is untouched by the loop). -/
theorem panRow2_copy (i : Nat) (h2 : 2 ≤ i) (hi : i < 600) :
    ∀ (L : List Nat), (∀ j ∈ L, j < 800) → ∀ (g : GridF) (i' j' : Nat),
      (L.foldl (panBody2 i) g) i' j'
        = if i' = i ∧ j' ∈ L then g (i - 2) j' else g i' j' := by
  intro L
  induction L with
  | nil =>
    intro _ g i' j'
    simp
  | cons a L ih =>
    intro hL g i' j'
    have ha : a < 800 := hL a (List.mem_cons_self a L)
    have hbody : panBody2 i g a = setAt g i a (g (i - 2) a) := by
      unfold panBody2
      rw [srcRow_eq h2 hi, srcCol_eq ha,
        if_pos ⟨show i - 2 < HEIGHT by unfold HEIGHT; omega,
          show a < WIDTH by unfold WIDTH; omega⟩]
    rw [List.foldl_cons, hbody,
      ih (fun j hj => hL j (List.mem_cons_of_mem a hj)) _ i' j']
    by_cases hii : i' = i
    · by_cases hjL : j' ∈ L
      · rw [if_pos ⟨hii, hjL⟩, if_pos ⟨hii, List.mem_cons_of_mem a hjL⟩]
        simp only [setAt]
        rw [if_neg (by omega)]
      · by_cases hja : j' = a
        · rw [if_neg (by tauto), if_pos ⟨hii, by rw [hja]; exact List.mem_cons_self a L⟩]
          simp only [setAt]
          rw [hii, hja, if_pos ⟨rfl, rfl⟩]
        · rw [if_neg (by tauto),
            if_neg (by rw [List.mem_cons]; tauto)]
          simp only [setAt]
          rw [if_neg (by tauto)]
    · rw [if_neg (by tauto), if_neg (by tauto)]
      simp only [setAt]
      rw [if_neg (by tauto)]

/-- Effect of the column loop of `move_to(2, 0)` on one row `i < 2`: every
visited cell of row `i` becomes the default transparent cell. -/
theorem panRow2_default (i : Nat) (h2 : i < 2) :
    ∀ (L : List Nat), ∀ (g : GridF) (i' j' : Nat),
      (L.foldl (panBody2 i) g) i' j'
        = if i' = i ∧ j' ∈ L then (DEFAULT_RGB888, false) else g i' j' := by
  intro L
  induction L with
  | nil =>
    intro g i' j'
    simp
  | cons a L ih =>
    intro g i' j'
    have hbody : panBody2 i g a = setAt g i a (DEFAULT_RGB888, false) := by
      unfold panBody2
      rw [if_neg (by
        intro hc
        exact srcRow_oob h2 hc.1)]
    rw [List.foldl_cons, hbody, ih _ i' j']
    by_cases hii : i' = i
    · by_cases hjL : j' ∈ L
      · rw [if_pos ⟨hii, hjL⟩, if_pos ⟨hii, List.mem_cons_of_mem a hjL⟩]
      · by_cases hja : j' = a
        · rw [if_neg (by tauto), if_pos ⟨hii, by rw [hja]; exact List.mem_cons_self a L⟩]
          simp only [setAt]
          rw [hii, hja, if_pos ⟨rfl, rfl⟩]
        · rw [if_neg (by tauto), if_neg (by rw [List.mem_cons]; tauto)]
          simp only [setAt]
          rw [if_neg (by tauto)]
    · rw [if_neg (by tauto), if_neg (by tauto)]
      simp only [setAt]
      rw [if_neg (by tauto)]

/-- Row-by-row accumulation of `move_to(2, 0)`: after the first `n` rows have
been processed in ascending order, every visited cell is already the default
transparent cell — each row `i ≥ 2` copies row `i - 2`, which the ascending
traversal has itself already overwritten with defaults. -/
theorem pan2_rows (g : GridF) : ∀ n, n ≤ 600 → ∀ i' j',
    ((List.range' 0 n).foldl
        (fun g i => ((List.range WIDTH).reverse).foldl (panBody2 i) g) g) i' j'
      = if i' < n ∧ j' < 800 then (DEFAULT_RGB888, false) else g i' j' := by
  intro n
  induction n with
  | zero =>
    intro _ i' j'
    simp
  | succ m ih =>
    intro hm i' j'
    rw [List.range'_concat, List.foldl_append, List.foldl_cons, List.foldl_nil]
    have hmem : ∀ j : Nat, (j ∈ (List.range WIDTH).reverse) ↔ j < 800 := by
      intro j
      rw [List.mem_reverse, List.mem_range]
      unfold WIDTH
      exact Iff.rfl
    have hL : ∀ j ∈ (List.range WIDTH).reverse, j < 800 :=
      fun j hj => (hmem j).1 hj
    have hrow : 0 + 1 * m = m := by omega
    rw [hrow]
    by_cases h2 : 2 ≤ m
    · rw [panRow2_copy m h2 (by omega) _ hL _ i' j']
      by_cases hii : i' = m
      · by_cases hjw : j' < 800
        · rw [if_pos ⟨hii, (hmem j').2 hjw⟩, ih (by omega) (m - 2) j',
            if_pos ⟨by omega, hjw⟩, if_pos ⟨by omega, hjw⟩]
        · rw [if_neg (by
              intro hc
              exact hjw ((hmem j').1 hc.2)),
            ih (by omega) i' j', if_neg (by omega), if_neg (by omega)]
      · rw [if_neg (fun hc => hii hc.1), ih (by omega) i' j']
        by_cases hlt : i' < m ∧ j' < 800
        · rw [if_pos hlt, if_pos ⟨by omega, hlt.2⟩]
        · rw [if_neg hlt, if_neg (by omega)]
    · rw [panRow2_default m (by omega) _ _ i' j']
      by_cases hii : i' = m
      · by_cases hjw : j' < 800
        · rw [if_pos ⟨hii, (hmem j').2 hjw⟩, if_pos ⟨by omega, hjw⟩]
        · rw [if_neg (by
              intro hc
              exact hjw ((hmem j').1 hc.2)),
            ih (by omega) i' j', if_neg (by omega), if_neg (by omega)]
      · rw [if_neg (fun hc => hii hc.1), ih (by omega) i' j']
        by_cases hlt : i' < m ∧ j' < 800
        · rw [if_pos hlt, if_pos ⟨by omega, hlt.2⟩]
        · rw [if_neg hlt, if_neg (by omega)]

/-- `move_to(2, 0)` erases the whole layer: because rows are traversed
ascending while the source row lies `dx` rows earlier, every source row has
already been overwritten when it is read, so every in-grid cell ends up
default-transparent, whatever the layer held before. -/
theorem move_to_2_0_clears (g : GridF) (i j : Nat) (hi : i < HEIGHT)
    (hj : j < WIDTH) : Writer.move_to g 2 0 i j = (DEFAULT_RGB888, false) := by
  unfold Writer.move_to
  simp only [show ((2 : Int) > 0) = True by norm_num,
    show ((0 : Int) > 0) = False by norm_num, if_true, if_false,
    List.range_eq_range' HEIGHT]
  have h6 := pan2_rows g 600 (by omega) i j
  rw [if_pos (show i < 600 ∧ j < 800 from ⟨hi, hj⟩)] at h6
  exact h6

/-- The 800×600 layer of the claim's example: an empty layer after
`display_rect(10, 10, 5, 5, RED)`. -/
def panExampleLayer : GridF :=
  Writer.display_rect (fun _ _ => (DEFAULT_RGB888, false)) 10 10 5 5 RED

/-- C1 (code bug): before the pan, cells (10,10) and (12,10) of the example
layer hold RED; after `move_to(2, 0)` the code leaves cell (12,10)
default-transparent — not RED as the claim requires for a destination cell
whose source (10,10) was in bounds — because rows are traversed ascending when
`dx > 0`, overwriting row 10 before row 12 reads it. -/
theorem move_to_pan_example :
    panExampleLayer 10 10 = (RED, true) ∧
    panExampleLayer 12 10 = (RED, true) ∧
    Writer.move_to panExampleLayer 2 0 12 10 = (DEFAULT_RGB888, false) ∧
    Writer.move_to panExampleLayer 2 0 10 10 = (DEFAULT_RGB888, false) ∧
    (DEFAULT_RGB888, false) ≠ ((RED, true) : Cell) := by
  refine ⟨?_, ?_, ?_, ?_, ?_⟩
  · rw [panExampleLayer, display_rect_apply, if_pos (by decide)]
  · rw [panExampleLayer, display_rect_apply, if_pos (by decide)]
  · exact move_to_2_0_clears panExampleLayer 12 10 (by decide) (by decide)
  · exact move_to_2_0_clears panExampleLayer 10 10 (by decide) (by decide)
  · decide

/-! ### `PhysicalWriter::render` — the compositor

`render(sx, sy, ex, ey)` first checks
`sx < HEIGHT && sy < WIDTH && ex <= HEIGHT && ey <= WIDTH`, returns if the
stack is empty, clones the top (highest-index) layer's data as the working
copy, then mixes the middle layers `(1..len-1).rev()` (skipping disabled
ones), resolves still-unoccupied cells from the background layer's color, and
finally writes every region cell to the hardware surface.  The embedding
names each pass; `render` chains them exactly as the source does. -/

/-- One middle layer's mixing loop: for every region cell not yet occupied in
the working copy, adopt the layer's cell when that one is occupied
(`if !graph[x][y].1 && tomix[x][y].1 { graph[x][y] = tomix[x][y] }`). -/
def mixPass (tomix : GridF) (sx sy ex ey : Nat) (graph : GridF) : GridF :=
  forRange sx ex (fun g x =>
    forRange sy ey (fun g y =>
      if (g x y).2 = false ∧ (tomix x y).2 = true then setAt g x y (tomix x y)
      else g) g) graph

/-- The layer loop `for layer in (1..p_lock.len() - 1).rev()`: middle layers
are mixed from the highest index down to 1, disabled ones skipped entirely
(`if !lock.enable { continue }`). -/
def mixLayers (layers : List Writer) (sx sy ex ey : Nat) (graph : GridF) : GridF :=
  ((List.range' 1 (layers.length - 1 - 1)).reverse).foldl
    (fun graph idx =>
      if (layers.getD idx Writer.new).enable = false then graph
      else mixPass (layers.getD idx Writer.new).data sx sy ex ey graph)
    graph

/-- The background pass:
`graph[x][y].0 = if graph[x][y].1 { graph[x][y].0 } else { tomix[x][y].0 }`
with `tomix` the background layer's data; the occupancy bit is kept. -/
def bgPass (tomix : GridF) (sx sy ex ey : Nat) (graph : GridF) : GridF :=
  forRange sx ex (fun g x =>
    forRange sy ey (fun g y =>
      setAt g x y
        ((if (g x y).2 then (g x y).1 else (tomix x y).1), (g x y).2)) g) graph

/-- The output pass: `self.0.chars[x][y].write(graph[x][y].0)` for every
region cell, unconditionally. -/
def writePass (graph : GridF) (sx sy ex ey : Nat) (surf : Surf) : Surf :=
  forRange sx ex (fun s x =>
    forRange sy ey (fun s y => setAt s x y (graph x y).1) s) surf

/-- `PhysicalWriter::render(sx, sy, ex, ey)` over the layer stack `GL` (here an
explicit `layers` argument) and the hardware surface. -/
def PhysicalWriter.render (layers : List Writer) (surf : Surf)
    (sx sy ex ey : Nat) : Surf :=
  if sx < HEIGHT ∧ sy < WIDTH ∧ ex ≤ HEIGHT ∧ ey ≤ WIDTH then
    if layers.length = 0 then surf
    else
      writePass
        (bgPass (layers.getD 0 Writer.new).data sx sy ex ey
          (mixLayers layers sx sy ex ey
            (layers.getD (layers.length - 1) Writer.new).data))
        sx sy ex ey surf
  else surf

/-- Cell-level effect of one mixing step: adopt `t` when the working cell is
unoccupied and `t` is occupied. -/
def mixCell (c t : Cell) : Cell := if c.2 = false ∧ t.2 = true then t else c

/-- Cell-level effect of the whole layer loop at one coordinate. -/
def mixCellLayers (layers : List Writer) (x y : Nat) (L : List Nat) (c : Cell) :
    Cell :=
  L.foldl (fun c idx =>
    if (layers.getD idx Writer.new).enable = false then c
    else mixCell c ((layers.getD idx Writer.new).data x y)) c

/-- The color `render` resolves for a region cell: the first-hit mix of the
middle layers seeded from the top layer's cell, falling back to the background
layer's stored color when unoccupied. -/
def resolveCell (layers : List Writer) (x y : Nat) : Rgb888 :=
  let c := mixCellLayers layers x y
    ((List.range' 1 (layers.length - 1 - 1)).reverse)
    ((layers.getD (layers.length - 1) Writer.new).data x y)
  if c.2 then c.1 else ((layers.getD 0 Writer.new).data x y).1

/-- Writing a cell's own current value back is a no-op. -/
theorem setAt_self {α : Type} (g : Grid α) (x y : Nat) :
    setAt g x y (g x y) = g := by
  funext i j
  unfold setAt
  by_cases hij : i = x ∧ j = y
  · rw [if_pos hij, hij.1, hij.2]
  · rw [if_neg hij]

/-- The conditional mixing store equals an unconditional store of `mixCell`. -/
theorem mix_body_eq (tomix : GridF) (x y : Nat) (g : GridF) :
    (if (g x y).2 = false ∧ (tomix x y).2 = true then setAt g x y (tomix x y)
      else g)
      = setAt g x y (mixCell (g x y) (tomix x y)) := by
  unfold mixCell
  by_cases h : (g x y).2 = false ∧ (tomix x y).2 = true
  · rw [if_pos h, if_pos h]
  · rw [if_neg h, if_neg h, setAt_self]

/-- Pointwise characterization of one layer's mixing pass. -/
theorem mixPass_apply (tomix : GridF) (sx sy ex ey : Nat) (g : GridF)
    (x y : Nat) :
    mixPass tomix sx sy ex ey g x y
      = if sx ≤ x ∧ x < ex ∧ sy ≤ y ∧ y < ey
        then mixCell (g x y) (tomix x y) else g x y := by
  unfold mixPass
  have hbody : ∀ x' : Nat,
      (fun (g : GridF) (y' : Nat) =>
        if (g x' y').2 = false ∧ (tomix x' y').2 = true
        then setAt g x' y' (tomix x' y') else g)
        = fun (g : GridF) (y' : Nat) =>
            setAt g x' y' (mixCell (g x' y') (tomix x' y')) := by
    intro x'
    funext g' y'
    exact mix_body_eq tomix x' y' g'
  simp only [hbody]
  exact forRange2_apply (fun x' y' c => mixCell c (tomix x' y')) sx ex sy ey g x y

/-- Pointwise characterization of the whole layer loop, for any index list. -/
theorem mixLayers_fold_apply (layers : List Writer) (sx sy ex ey : Nat) :
    ∀ (L : List Nat) (g : GridF) (x y : Nat),
      (L.foldl (fun graph idx =>
          if (layers.getD idx Writer.new).enable = false then graph
          else mixPass (layers.getD idx Writer.new).data sx sy ex ey graph) g) x y
        = if sx ≤ x ∧ x < ex ∧ sy ≤ y ∧ y < ey
          then mixCellLayers layers x y L (g x y) else g x y := by
  intro L
  induction L with
  | nil =>
    intro g x y
    by_cases hin : sx ≤ x ∧ x < ex ∧ sy ≤ y ∧ y < ey
    · simp [mixCellLayers, hin]
    · simp [mixCellLayers, hin]
  | cons a L ih =>
    intro g x y
    rw [List.foldl_cons]
    by_cases he : (layers.getD a Writer.new).enable = false
    · rw [if_pos he, ih g x y]
      unfold mixCellLayers
      rw [List.foldl_cons, if_pos he]
    · rw [if_neg he, ih (mixPass (layers.getD a Writer.new).data sx sy ex ey g) x y]
      by_cases hin : sx ≤ x ∧ x < ex ∧ sy ≤ y ∧ y < ey
      · rw [if_pos hin, if_pos hin]
        unfold mixCellLayers
        rw [List.foldl_cons, if_neg he]
        have := mixPass_apply (layers.getD a Writer.new).data sx sy ex ey g x y
        rw [if_pos hin] at this
        rw [this]
      · rw [if_neg hin, if_neg hin]
        have := mixPass_apply (layers.getD a Writer.new).data sx sy ex ey g x y
        rw [if_neg hin] at this
        rw [this]

/-- Pointwise characterization of the background pass. -/
theorem bgPass_apply (tomix : GridF) (sx sy ex ey : Nat) (g : GridF)
    (x y : Nat) :
    bgPass tomix sx sy ex ey g x y
      = if sx ≤ x ∧ x < ex ∧ sy ≤ y ∧ y < ey
        then ((if (g x y).2 then (g x y).1 else (tomix x y).1), (g x y).2)
        else g x y := by
  unfold bgPass
  exact forRange2_apply
    (fun x' y' c => ((if c.2 then c.1 else (tomix x' y').1), c.2))
    sx ex sy ey g x y

/-- Pointwise characterization of the output pass. -/
theorem writePass_apply (graph : GridF) (sx sy ex ey : Nat) (surf : Surf)
    (x y : Nat) :
    writePass graph sx sy ex ey surf x y
      = if sx ≤ x ∧ x < ex ∧ sy ≤ y ∧ y < ey then (graph x y).1
        else surf x y := by
  unfold writePass
  exact forRange2_apply (fun x' y' _ => (graph x' y').1) sx ex sy ey surf x y

/-- Master pointwise characterization of `render`: inside the (in-bounds)
region every surface cell receives `resolveCell`, outside it the surface is
untouched. -/
theorem render_apply (layers : List Writer) (surf : Surf) (sx sy ex ey : Nat)
    (hg : sx < HEIGHT ∧ sy < WIDTH ∧ ex ≤ HEIGHT ∧ ey ≤ WIDTH)
    (hne : ¬ layers.length = 0) (x y : Nat) :
    PhysicalWriter.render layers surf sx sy ex ey x y
      = if sx ≤ x ∧ x < ex ∧ sy ≤ y ∧ y < ey then resolveCell layers x y
        else surf x y := by
  unfold PhysicalWriter.render
  rw [if_pos hg, if_neg hne, writePass_apply]
  by_cases hin : sx ≤ x ∧ x < ex ∧ sy ≤ y ∧ y < ey
  · rw [if_pos hin, if_pos hin, bgPass_apply, if_pos hin]
    unfold mixLayers
    rw [mixLayers_fold_apply layers sx sy ex ey _ _ x y, if_pos hin]
    unfold resolveCell
    rfl
  · rw [if_neg hin, if_neg hin]

/-- A Bool that is not false is true. -/
theorem bool_true_of_not_false {b : Bool} (h : ¬ b = false) : b = true := by
  cases b
  · exact absurd rfl h
  · rfl

/-- A false Bool is not true. -/
theorem bool_not_true_of_false {b : Bool} (h : b = false) : ¬ b = true := by
  rw [h]
  exact Bool.false_ne_true

/-- A true Bool is not false. -/
theorem bool_not_false_of_true {b : Bool} (h : b = true) : ¬ b = false := by
  rw [h]
  exact fun hc => Bool.false_ne_true hc.symm

/-- If every consulted (enabled) layer of the index list is unoccupied at the
cell, the mix leaves an unoccupied seed cell unchanged. -/
theorem mixCellLayers_skip (layers : List Writer) (x y : Nat) :
    ∀ (L : List Nat) (c : Cell),
      (∀ k ∈ L, (layers.getD k Writer.new).enable = true →
        ((layers.getD k Writer.new).data x y).2 = false) →
      c.2 = false → mixCellLayers layers x y L c = c := by
  intro L
  induction L with
  | nil =>
    intro c _ _
    rfl
  | cons a L ih =>
    intro c hL hc
    unfold mixCellLayers
    rw [List.foldl_cons]
    by_cases he : (layers.getD a Writer.new).enable = false
    · rw [if_pos he]
      exact ih c (fun k hk => hL k (List.mem_cons_of_mem a hk)) hc
    · rw [if_neg he]
      have hocc : ((layers.getD a Writer.new).data x y).2 = false :=
        hL a (List.mem_cons_self a L) (bool_true_of_not_false he)
      have hmix : mixCell c ((layers.getD a Writer.new).data x y) = c := by
        unfold mixCell
        rw [if_neg (fun hcon => bool_not_true_of_false hocc hcon.2)]
      rw [hmix]
      exact ih c (fun k hk => hL k (List.mem_cons_of_mem a hk)) hc

/-- Once the working cell is occupied, the rest of the layer loop never
changes it. -/
theorem mixCellLayers_occupied (layers : List Writer) (x y : Nat) :
    ∀ (L : List Nat) (c : Cell), c.2 = true →
      mixCellLayers layers x y L c = c := by
  intro L
  induction L with
  | nil =>
    intro c _
    rfl
  | cons a L ih =>
    intro c hc
    unfold mixCellLayers
    rw [List.foldl_cons]
    by_cases he : (layers.getD a Writer.new).enable = false
    · rw [if_pos he]
      exact ih c hc
    · rw [if_neg he]
      have hmix : mixCell c ((layers.getD a Writer.new).data x y) = c := by
        unfold mixCell
        rw [if_neg (fun hcon => bool_not_false_of_true hc hcon.1)]
      rw [hmix]
      exact ih c hc

/-- First-hit-wins over the descending middle-layer scan: if layer `i` is
enabled and occupied at the cell, every enabled layer with a higher middle
index is unoccupied there, and the seed is unoccupied, the scan resolves to
layer `i`'s cell. -/
theorem mixCellLayers_first_hit (layers : List Writer) (x y : Nat) (i : Nat)
    (hi1 : 1 ≤ i)
    (hen : (layers.getD i Writer.new).enable = true)
    (hocc : ((layers.getD i Writer.new).data x y).2 = true) :
    ∀ m, i ≤ m →
      (∀ k, i < k → k ≤ m → (layers.getD k Writer.new).enable = true →
        ((layers.getD k Writer.new).data x y).2 = false) →
      ∀ c : Cell, c.2 = false →
        mixCellLayers layers x y ((List.range' 1 m).reverse) c
          = (layers.getD i Writer.new).data x y := by
  intro m
  induction m with
  | zero =>
    intro him
    omega
  | succ m ih =>
    intro him hmiss c hc
    rw [List.range'_concat, List.reverse_append, List.reverse_singleton]
    unfold mixCellLayers
    rw [List.singleton_append, List.foldl_cons]
    by_cases hlast : i = 1 + 1 * m
    · rw [← hlast, if_neg (bool_not_false_of_true hen)]
      have hmix : mixCell c ((layers.getD i Writer.new).data x y)
          = (layers.getD i Writer.new).data x y := by
        unfold mixCell
        rw [if_pos ⟨hc, hocc⟩]
      rw [hmix]
      exact mixCellLayers_occupied layers x y _ _ hocc
    · have hstep :
          (if (layers.getD (1 + 1 * m) Writer.new).enable = false then c
            else mixCell c ((layers.getD (1 + 1 * m) Writer.new).data x y)) = c := by
        by_cases he : (layers.getD (1 + 1 * m) Writer.new).enable = false
        · rw [if_pos he]
        · rw [if_neg he]
          have hu : ((layers.getD (1 + 1 * m) Writer.new).data x y).2 = false :=
            hmiss (1 + 1 * m) (by omega) (by omega) (bool_true_of_not_false he)
          unfold mixCell
          rw [if_neg (fun hcon => bool_not_true_of_false hu hcon.2)]
      rw [hstep]
      exact ih (by omega)
        (fun k hk1 hk2 => hmiss k hk1 (by omega)) c hc

/-- Updating one stack slot leaves every other slot's `getD` unchanged. -/
theorem getD_set_ne (l : List Writer) (i k : Nat) (a d : Writer) (h : i ≠ k) :
    (l.set i a).getD k d = l.getD k d := by
  rw [List.getD_eq_getElem?_getD, List.getD_eq_getElem?_getD,
    List.getElem?_set_ne h]

/-- Updating an in-range stack slot makes `getD` return the new layer. -/
theorem getD_set_self (l : List Writer) (i : Nat) (a d : Writer)
    (h : i < l.length) : (l.set i a).getD i d = a := by
  rw [List.getD_eq_getElem?_getD, List.getElem?_set_self h]
  rfl

/-! ### Concrete stacks used by counterexamples and witnesses -/

/-- A sample color (`BLUE`). -/
def BLUE : Rgb888 := ⟨0, 0, 255⟩

/-- A sample color (`GREEN`). -/
def GREEN : Rgb888 := ⟨0, 255, 0⟩

/-- A sample color (`YELLOW`). -/
def YELLOW : Rgb888 := ⟨255, 255, 0⟩

/-- A disabled top layer that nonetheless has an occupied red cell at (5,5). -/
def cexTop : Writer :=
  ⟨fun i j => if i = 5 ∧ j = 5 then (RED, true) else (DEFAULT_RGB888, false),
    false⟩

/-- A background layer storing blue everywhere, all occupancy bits clear. -/
def cexBg : Writer := ⟨fun _ _ => (BLUE, false), true⟩

/-- Five-layer stack whose top layer is disabled but occupied at (5,5). -/
def cexStack : List Writer :=
  [cexBg, Writer.new, Writer.new, Writer.new, cexTop]

/-- `cexTop` with the same stored colors but every occupancy bit cleared. -/
def cexTopCleared : Writer :=
  ⟨fun i j => ((cexTop.data i j).1, false), false⟩

/-- `cexStack` as it would look if the top layer had no occupied cells. -/
def cexStackCleared : List Writer :=
  [cexBg, Writer.new, Writer.new, Writer.new, cexTopCleared]

/-- C2 counterexample: the top (index 4) layer of `cexStack` is disabled yet
occupied at (5,5); `render` still paints its red pixel, whereas the same stack
with the top layer's occupancy cleared (stored colors identical) renders the
background's blue — so a disabled *top* layer does contribute to the output,
contradicting the claim for the highest-index layer. -/
theorem render_disabled_top_counterexample :
    (cexStack.getD 4 Writer.new).enable = false ∧
    ((cexStack.getD 4 Writer.new).data 5 5).2 = true ∧
    ((cexStackCleared.getD 4 Writer.new).data 5 5).2 = false ∧
    ((cexStackCleared.getD 4 Writer.new).data 5 5).1
      = ((cexStack.getD 4 Writer.new).data 5 5).1 ∧
    PhysicalWriter.render cexStack (fun _ _ => DEFAULT_RGB888) 5 5 6 6 5 5
      = RED ∧
    PhysicalWriter.render cexStackCleared (fun _ _ => DEFAULT_RGB888) 5 5 6 6 5 5
      = BLUE ∧
    RED ≠ BLUE := by
  refine ⟨rfl, rfl, rfl, rfl, by decide, by decide, by decide⟩

/-- C2 (amended): a disabled layer that is neither the background (index 0)
nor the top (highest-index) layer contributes nothing to `render`: replacing
its pixel data by anything (keeping it disabled) leaves the rendered surface
unchanged.  (The top layer is seeded into the working copy without an enable
check, so the claim holds only for middle layers.) -/
theorem render_disabled_middle_spec (layers : List Writer) (surf : Surf)
    (sx sy ex ey i : Nat) (d2 : GridF)
    (hi1 : 1 ≤ i) (hi2 : i + 2 ≤ layers.length)
    (hdis : (layers.getD i Writer.new).enable = false) :
    PhysicalWriter.render (layers.set i ⟨d2, false⟩) surf sx sy ex ey
      = PhysicalWriter.render layers surf sx sy ex ey := by
  by_cases hg : sx < HEIGHT ∧ sy < WIDTH ∧ ex ≤ HEIGHT ∧ ey ≤ WIDTH
  · funext x y
    have hne : ¬ layers.length = 0 := by omega
    have hne2 : ¬ (layers.set i ⟨d2, false⟩).length = 0 := by
      rw [List.length_set]
      omega
    rw [render_apply _ surf sx sy ex ey hg hne2 x y,
      render_apply layers surf sx sy ex ey hg hne x y]
    by_cases hin : sx ≤ x ∧ x < ex ∧ sy ≤ y ∧ y < ey
    · rw [if_pos hin, if_pos hin]
      unfold resolveCell
      rw [List.length_set,
        getD_set_ne layers i (layers.length - 1) _ Writer.new (by omega),
        getD_set_ne layers i 0 _ Writer.new (by omega)]
      have hfold :
          mixCellLayers (layers.set i ⟨d2, false⟩) x y
              ((List.range' 1 (layers.length - 1 - 1)).reverse)
              ((layers.getD (layers.length - 1) Writer.new).data x y)
            = mixCellLayers layers x y
              ((List.range' 1 (layers.length - 1 - 1)).reverse)
              ((layers.getD (layers.length - 1) Writer.new).data x y) := by
        unfold mixCellLayers
        refine List.foldl_ext _ _ _ ?_
        intro c k hk
        by_cases hki : k = i
        · rw [hki, getD_set_self layers i _ Writer.new (by omega)]
          rw [if_pos rfl, if_pos hdis]
        · rw [getD_set_ne layers i k _ Writer.new (fun hik => hki hik.symm)]
      rw [hfold]
    · rw [if_neg hin, if_neg hin]
  · unfold PhysicalWriter.render
    rw [if_neg hg, if_neg hg]

/-- A disabled middle layer with an occupied green cell, for the C2 witness. -/
def wit2Mid : Writer :=
  ⟨fun i j => if i = 5 ∧ j = 5 then (GREEN, true) else (DEFAULT_RGB888, false),
    false⟩

/-- Five-layer stack with the disabled `wit2Mid` at middle index 2. -/
def wit2Stack : List Writer :=
  [cexBg, Writer.new, wit2Mid, Writer.new, cexTop]

/-- Witness for the amended C2: blanking the disabled middle layer 2 of
`wit2Stack` leaves the rendered output unchanged. -/
theorem render_disabled_middle_spec_witness :
    PhysicalWriter.render
        (wit2Stack.set 2 ⟨fun _ _ => (DEFAULT_RGB888, false), false⟩)
        (fun _ _ => DEFAULT_RGB888) 5 5 6 6
      = PhysicalWriter.render wit2Stack (fun _ _ => DEFAULT_RGB888) 5 5 6 6 :=
  render_disabled_middle_spec wit2Stack (fun _ _ => DEFAULT_RGB888) 5 5 6 6 2
    (fun _ _ => (DEFAULT_RGB888, false)) (by decide) (by decide) rfl

/-- An enabled middle layer with an occupied green cell at (5,5). -/
def cex3L1 : Writer :=
  ⟨fun i j => if i = 5 ∧ j = 5 then (GREEN, true) else (DEFAULT_RGB888, false),
    true⟩

/-- An enabled middle layer with an occupied yellow cell at (5,5). -/
def cex3L2 : Writer :=
  ⟨fun i j => if i = 5 ∧ j = 5 then (YELLOW, true) else (DEFAULT_RGB888, false),
    true⟩

/-- An enabled but completely unoccupied middle layer. -/
def cex3L3 : Writer := ⟨fun _ _ => (DEFAULT_RGB888, false), true⟩

/-- Stack where (5,5) is occupied in enabled layers 1 and 2, the highest
enabled occupant being layer 2 (yellow), while the disabled top layer also
occupies it (red). -/
def cex3Stack : List Writer := [cexBg, cex3L1, cex3L2, cex3L3, cexTop]

/-- C3 counterexample: cell (5,5) is occupied in the enabled non-background
layers 1 and 2 of `cex3Stack`, whose highest-indexed member is layer 2 with
color yellow; yet `render` resolves the cell to the disabled top layer's red,
because the top layer is seeded without an enable check. -/
theorem render_top_wins_counterexample :
    (cex3Stack.getD 1 Writer.new).enable = true ∧
    ((cex3Stack.getD 1 Writer.new).data 5 5).2 = true ∧
    (cex3Stack.getD 2 Writer.new).enable = true ∧
    ((cex3Stack.getD 2 Writer.new).data 5 5).2 = true ∧
    ((cex3Stack.getD 2 Writer.new).data 5 5).1 = YELLOW ∧
    ((cex3Stack.getD 3 Writer.new).data 5 5).2 = false ∧
    (cex3Stack.getD 4 Writer.new).enable = false ∧
    cex3Stack.length = 5 ∧
    PhysicalWriter.render cex3Stack (fun _ _ => DEFAULT_RGB888) 5 5 6 6 5 5
      = RED ∧
    RED ≠ YELLOW := by
  refine ⟨rfl, rfl, rfl, rfl, rfl, rfl, rfl, rfl, by decide, by decide⟩

/-- C3 (amended): when the top layer does *not* occupy the cell, `render`
resolves a cell occupied in several enabled middle layers to the
highest-indexed among them (first-hit-wins, top-down).  An occupied top-layer
cell instead wins outright, regardless of the top layer's enable flag. -/
theorem render_first_hit_spec (layers : List Writer) (surf : Surf)
    (sx sy ex ey x y i : Nat)
    (hg : sx < HEIGHT ∧ sy < WIDTH ∧ ex ≤ HEIGHT ∧ ey ≤ WIDTH)
    (hin : sx ≤ x ∧ x < ex ∧ sy ≤ y ∧ y < ey)
    (hi1 : 1 ≤ i) (hi2 : i + 2 ≤ layers.length)
    (hen : (layers.getD i Writer.new).enable = true)
    (hocc : ((layers.getD i Writer.new).data x y).2 = true)
    (htop : ((layers.getD (layers.length - 1) Writer.new).data x y).2 = false)
    (hmiss : ∀ k, i < k → k + 2 ≤ layers.length →
      (layers.getD k Writer.new).enable = true →
      ((layers.getD k Writer.new).data x y).2 = false) :
    PhysicalWriter.render layers surf sx sy ex ey x y
      = ((layers.getD i Writer.new).data x y).1 := by
  have hne : ¬ layers.length = 0 := by omega
  rw [render_apply layers surf sx sy ex ey hg hne x y, if_pos hin]
  unfold resolveCell
  rw [mixCellLayers_first_hit layers x y i hi1 hen hocc (layers.length - 1 - 1)
    (by omega) (fun k hk1 hk2 => hmiss k hk1 (by omega)) _ htop]
  rw [if_pos hocc]

/-- `cex3L2` with the stack's top unoccupied, for the C3 witness. -/
def wit3Stack : List Writer := [cexBg, cex3L1, cex3L2, cex3L3, Writer.new]

/-- Witness for the amended C3: with the top layer unoccupied, the cell
occupied in enabled layers 1 and 2 renders to layer 2's yellow. -/
theorem render_first_hit_spec_witness :
    PhysicalWriter.render wit3Stack (fun _ _ => DEFAULT_RGB888) 5 5 6 6 5 5
      = YELLOW :=
  render_first_hit_spec wit3Stack (fun _ _ => DEFAULT_RGB888) 5 5 6 6 5 5 2
    (by decide) (by decide) (by decide) (by decide) rfl rfl rfl
    (by
      intro k h1 h2 h3
      have hlen : wit3Stack.length = 5 := rfl
      rw [hlen] at h2
      have hk : k = 3 := by omega
      rw [hk] at h3 ⊢
      rfl)

/-- Background layer storing red everywhere, for the C4 counterexample. -/
def c4Bg : Writer := ⟨fun _ _ => (RED, false), true⟩

/-- A two-layer stack: red-colored background plus an empty top layer. -/
def c4Stack : List Writer := [c4Bg, Writer.new]

/-- C4 counterexample: for the non-degenerate region [0,601)×[0,1) over the
nonempty `c4Stack`, `render` leaves the surface completely untouched — it
does not clip `ex = 601` to `HEIGHT = 600` (rendering the clipped region
would paint (0,0) red). -/
theorem render_no_clip_counterexample :
    c4Stack.length ≠ 0 ∧ 0 < 601 ∧ 0 < 1 ∧
    PhysicalWriter.render c4Stack (fun _ _ => DEFAULT_RGB888) 0 0 601 1
      = (fun _ _ => DEFAULT_RGB888) ∧
    PhysicalWriter.render c4Stack (fun _ _ => DEFAULT_RGB888) 0 0 600 1 0 0
      = RED ∧
    RED ≠ DEFAULT_RGB888 := by
  refine ⟨by decide, by decide, by decide, rfl, ?_, by decide⟩
  have happ := render_apply c4Stack (fun _ _ => DEFAULT_RGB888) 0 0 600 1
    (by decide) (by decide) 0 0
  rw [if_pos (by omega)] at happ
  rw [happ]
  decide

/-- C4 (amended): `render` is a no-op whenever the requested region is not
entirely within the surface bounds (no clipping is performed), when the stack
is empty, and when the region is degenerate; otherwise every region cell is
overwritten with the resolved color. -/
theorem render_region_spec (layers : List Writer) (surf : Surf)
    (sx sy ex ey : Nat) :
    (¬ (sx < HEIGHT ∧ sy < WIDTH ∧ ex ≤ HEIGHT ∧ ey ≤ WIDTH) →
      PhysicalWriter.render layers surf sx sy ex ey = surf) ∧
    (layers.length = 0 → PhysicalWriter.render layers surf sx sy ex ey = surf) ∧
    (ex ≤ sx ∨ ey ≤ sy → PhysicalWriter.render layers surf sx sy ex ey = surf) ∧
    ((sx < HEIGHT ∧ sy < WIDTH ∧ ex ≤ HEIGHT ∧ ey ≤ WIDTH) →
      ¬ layers.length = 0 → ∀ x y,
      sx ≤ x → x < ex → sy ≤ y → y < ey →
      PhysicalWriter.render layers surf sx sy ex ey x y
        = resolveCell layers x y) := by
  refine ⟨fun h => ?_, fun h => ?_, fun h => ?_, fun hg hne x y h1 h2 h3 h4 => ?_⟩
  · unfold PhysicalWriter.render
    rw [if_neg h]
  · unfold PhysicalWriter.render
    by_cases hg : sx < HEIGHT ∧ sy < WIDTH ∧ ex ≤ HEIGHT ∧ ey ≤ WIDTH
    · rw [if_pos hg, if_pos h]
    · rw [if_neg hg]
  · by_cases hg : sx < HEIGHT ∧ sy < WIDTH ∧ ex ≤ HEIGHT ∧ ey ≤ WIDTH
    · by_cases hne : layers.length = 0
      · unfold PhysicalWriter.render
        rw [if_pos hg, if_pos hne]
      · funext x y
        rw [render_apply layers surf sx sy ex ey hg hne x y,
          if_neg (by omega)]
    · unfold PhysicalWriter.render
      rw [if_neg hg]
  · rw [render_apply layers surf sx sy ex ey hg hne x y,
      if_pos ⟨h1, h2, h3, h4⟩]

/-- Witness for the amended C4: the out-of-bounds region [0,601)×[0,1) is a
no-op over `c4Stack`, while the in-bounds cell (0,0) of region [0,10)×[0,10)
receives its resolved color. -/
theorem render_region_spec_witness :
    PhysicalWriter.render c4Stack (fun _ _ => DEFAULT_RGB888) 0 0 601 1
      = (fun _ _ => DEFAULT_RGB888) ∧
    PhysicalWriter.render c4Stack (fun _ _ => DEFAULT_RGB888) 0 0 10 10 0 0
      = resolveCell c4Stack 0 0 :=
  ⟨(render_region_spec c4Stack (fun _ _ => DEFAULT_RGB888) 0 0 601 1).1
      (by decide),
   (render_region_spec c4Stack (fun _ _ => DEFAULT_RGB888) 0 0 10 10).2.2.2
      (by decide) (by decide) 0 0 (by decide) (by decide) (by decide) (by decide)⟩

/-- C5: a region cell unoccupied in the top layer and in every enabled middle
layer resolves to the background layer's stored color — no hypothesis
whatsoever is needed about the background's occupancy bits or enable flag —
and the output written to the surface does not depend on the surface's prior
contents (every region cell is written unconditionally). -/
theorem render_background_fallback_spec (layers : List Writer) (surf : Surf)
    (sx sy ex ey x y : Nat)
    (hg : sx < HEIGHT ∧ sy < WIDTH ∧ ex ≤ HEIGHT ∧ ey ≤ WIDTH)
    (hne : ¬ layers.length = 0)
    (hin : sx ≤ x ∧ x < ex ∧ sy ≤ y ∧ y < ey)
    (htop : ((layers.getD (layers.length - 1) Writer.new).data x y).2 = false)
    (hmiss : ∀ k, 1 ≤ k → k + 2 ≤ layers.length →
      (layers.getD k Writer.new).enable = true →
      ((layers.getD k Writer.new).data x y).2 = false) :
    PhysicalWriter.render layers surf sx sy ex ey x y
      = ((layers.getD 0 Writer.new).data x y).1 ∧
    (∀ surf2 : Surf, PhysicalWriter.render layers surf sx sy ex ey x y
      = PhysicalWriter.render layers surf2 sx sy ex ey x y) := by
  constructor
  · rw [render_apply layers surf sx sy ex ey hg hne x y, if_pos hin]
    unfold resolveCell
    rw [mixCellLayers_skip layers x y _ _ ?_ htop]
    · rw [if_neg (bool_not_true_of_false htop)]
    · intro k hk
      have hk2 := List.mem_range'_1.1 (List.mem_reverse.1 hk)
      exact hmiss k (by omega) (by omega)
  · intro surf2
    rw [render_apply layers surf sx sy ex ey hg hne x y,
      render_apply layers surf2 sx sy ex ey hg hne x y,
      if_pos hin, if_pos hin]

/-- Background with every occupancy bit set and enable off, for the C5
witness: neither matters to the fallback. -/
def wit5Bg : Writer := ⟨fun _ _ => (BLUE, true), false⟩

/-- Two-layer stack: `wit5Bg` below an empty top layer. -/
def wit5Stack : List Writer := [wit5Bg, Writer.new]

/-- Witness for C5: the unoccupied cell (5,5) renders to the background's
blue even though the background is disabled and its occupancy bit is set. -/
theorem render_background_fallback_spec_witness :
    PhysicalWriter.render wit5Stack (fun _ _ => DEFAULT_RGB888) 5 5 6 6 5 5
      = BLUE :=
  (render_background_fallback_spec wit5Stack (fun _ _ => DEFAULT_RGB888)
    5 5 6 6 5 5 (by decide) (by decide) (by decide) rfl
    (by
      intro k h1 h2 h3
      have hlen : wit5Stack.length = 2 := rfl
      rw [hlen] at h2
      omega)).1

/-! ### Bitmap decode paths

The tinybmp decoder is an external crate: the blit routines receive its
output — for the 24-bit path a list of `(position, Rgb888)` pixels, for the
32-bit path the header's optional channel masks plus a list of raw samples —
or a decode error. -/

/-- tinybmp's `ChannelMasks`: per-channel bit masks from the BMP header. -/
structure ChannelMasks where
  blue : Nat
  green : Nat
  red : Nat
  alpha : Nat

/-- The default masks the source substitutes when the header declares none:
8-bit B/G/R/A lanes. -/
def default_channel_masks : ChannelMasks :=
  ⟨0x000000FF, 0x0000FF00, 0x00FF0000, 0xFF000000⟩

/-- A decoded pixel's source position (`x` = source column, `y` = source row). -/
structure RawPos where
  x : Nat
  y : Nat

/-- tinybmp `RawPixel`: source position plus the raw 32-bit sample. -/
structure RawPixel where
  position : RawPos
  color : Nat

/-- A successfully parsed raw bitmap: the header's channel masks (when
declared) and the pixel pull sequence. -/
structure RawBmpData where
  channel_masks : Option ChannelMasks
  pixels : List RawPixel

/-- embedded_graphics `Pixel` as produced by the 24-bit decoder: position plus
truecolor. -/
structure BmpPixel where
  position : RawPos
  color : Rgb888

/-- The shift-derivation loop `while m & 1 == 0 { r += 1; m >>= 1 }`,
fuel-indexed: `none` means the loop has not terminated within `fuel`
iterations (for `m = 0` it never terminates at all). -/
def mask_shift_loop : Nat → Nat → Nat → Option (Nat × Nat)
  | 0, r, m => if m &&& 1 = 0 then none else some (r, m)
  | fuel + 1, r, m =>
    if m &&& 1 = 0 then mask_shift_loop fuel (r + 1) (m >>> 1)
    else some (r, m)

/-- The loop body of `display_img_32rgba`: reconstruct the color channels as
`((sample & mask) >> shift) as u8` — the cast truncates each channel modulo
256 — the normalized alpha as
`((sample & alphaMask) >> alphaShift) / (alphaMask >> alphaShift)` (exact
rational standing for the source's `f32`; the alpha value itself carries no
`u8` cast), and paint opaque through `display_pixel_safe` exactly when
`alpha > 0.5`. -/
def blit32_pixel (cm : ChannelMasks) (rr gr br ar asize : Nat)
    (x y : Nat) (g : GridF) (p : RawPixel) : GridF :=
  let rgb_color : Rgb888 :=
    ⟨((p.color &&& cm.red) >>> rr) % 256, ((p.color &&& cm.green) >>> gr) % 256,
      ((p.color &&& cm.blue) >>> br) % 256⟩
  let alpha : ℚ := (((p.color &&& cm.alpha) >>> ar : Nat) : ℚ) / (asize : ℚ)
  if alpha > 1 / 2 then
    Writer.display_pixel_safe g (x + p.position.y) (y + p.position.x) rgb_color
  else g

/-- `Writer::display_img_32rgba`: substitute default masks when the header
declares none, derive each channel's shift by the trailing-zero loop (in
source order: red, green, blue, alpha — the embedding returns `none` if a
loop diverges, i.e. the mask being processed is zero), then paint every
decoded sample through `blit32_pixel`.  A decode error is reported and paints
nothing. -/
def Writer.display_img_32rgba (g : GridF) (x y : Nat)
    (parsed : Except Nat RawBmpData) : Option GridF :=
  match parsed with
  | .error _ => some g
  | .ok bmp =>
    let cm := match bmp.channel_masks with
      | none => default_channel_masks
      | some cm => cm
    match mask_shift_loop 32 0 cm.red with
    | none => none
    | some (rr, _) =>
      match mask_shift_loop 32 0 cm.green with
      | none => none
      | some (gr, _) =>
        match mask_shift_loop 32 0 cm.blue with
        | none => none
        | some (br, _) =>
          match mask_shift_loop 32 0 cm.alpha with
          | none => none
          | some (ar, _) =>
            some (bmp.pixels.foldl
              (blit32_pixel cm rr gr br ar (cm.alpha >>> ar) x y) g)

/-- `Writer::display_img` (24-bit path): on a successful parse write every
decoded pixel unchecked at `(x + position.y, y + position.x)`; on a decode
error print it to the QEMU diagnostic sink (second component: the log of the
call) and paint nothing. -/
def Writer.display_img (g : GridF) (x y : Nat)
    (parsed : Except Nat (List BmpPixel)) : GridF × List Nat :=
  match parsed with
  | .ok pxs =>
    (pxs.foldl (fun g p =>
      setAt g (x + p.position.y) (y + p.position.x) (p.color, true)) g, [])
  | .error e => (g, [e])

/-- `PhysicalWriter::display_img`: the same over the hardware surface,
through the unchecked `display_pixel`. -/
def PhysicalWriter.display_img (s : Surf) (x y : Nat)
    (parsed : Except Nat (List BmpPixel)) : Surf × List Nat :=
  match parsed with
  | .ok pxs =>
    (pxs.foldl (fun s p =>
      setAt s (x + p.position.y) (y + p.position.x) p.color) s, [])
  | .error e => (s, [e])

/-- One rasterizer callback invocation of `glyph.draw(|y, x, v| …)`:
callback row argument `y`, column argument `x`, coverage `v ∈ [0,1]`
(exact rational standing for the source's `f32`). -/
structure FontSample where
  y : Nat
  x : Nat
  v : ℚ

/-- `Writer::display_font`: paint each rasterizer sample with coverage
`v > 0.5` opaquely through `display_pixel_safe` at
`(x_offset + x_pos + x, y_pos + y + bbox.min.x)`.  The `usize` offsets
`x_offset = (line_height as f32 + bbox.min.y) as usize` and `bbox.min.x as
usize` are computed from the external rasterizer's `f32` metrics and enter
the embedding as arguments. -/
def Writer.display_font (g : GridF) (x_pos y_pos x_offset bbox_min_x : Nat)
    (color : Rgb888) (samples : List FontSample) : GridF :=
  samples.foldl (fun g s =>
    if s.v > 1 / 2 then
      Writer.display_pixel_safe g (x_offset + x_pos + s.x)
        (y_pos + s.y + bbox_min_x) color
    else g) g

/-- C8: a decode error makes both image blits return the surface exactly as
it was, with the error pushed to the diagnostic sink — no pixel is written,
no panic occurs (the embedding is a total function). -/
theorem display_img_error_spec :
    ∀ (g : GridF) (s : Surf) (x y : Nat) (e : Nat),
      Writer.display_img g x y (.error e) = (g, [e]) ∧
      PhysicalWriter.display_img s x y (.error e) = (s, [e]) :=
  fun _ _ _ _ _ => ⟨rfl, rfl⟩

/-- C7: for a pixel decoded by `display_img_32rgba` with header-declared
masks, the derived shifts being the trailing-zero counts the loops return,
and an in-bounds destination, the pixel is painted fully opaque
(`(color, occupied = true)` with channels `((sample & mask) >> shift) as u8`,
i.e. truncated modulo 256) exactly when the normalized alpha
`((sample & alphaMask) >> alphaShift) / (alphaMask >> alphaShift)` is
strictly greater than 1/2; for alpha ≤ 1/2 the layer is left completely
unchanged — no partial blending. -/
theorem display_img_32rgba_alpha_spec (g : GridF) (x y : Nat)
    (cm : ChannelMasks) (p : RawPixel) (rr rm gr gm br bm ar am : Nat)
    (hr : mask_shift_loop 32 0 cm.red = some (rr, rm))
    (hgr : mask_shift_loop 32 0 cm.green = some (gr, gm))
    (hb : mask_shift_loop 32 0 cm.blue = some (br, bm))
    (ha : mask_shift_loop 32 0 cm.alpha = some (ar, am))
    (hx : x + p.position.y < HEIGHT) (hy : y + p.position.x < WIDTH) :
    ((((p.color &&& cm.alpha) >>> ar : Nat) : ℚ) / ((cm.alpha >>> ar : Nat) : ℚ)
        > 1 / 2 →
      Writer.display_img_32rgba g x y (.ok ⟨some cm, [p]⟩)
        = some (setAt g (x + p.position.y) (y + p.position.x)
            (⟨((p.color &&& cm.red) >>> rr) % 256,
              ((p.color &&& cm.green) >>> gr) % 256,
              ((p.color &&& cm.blue) >>> br) % 256⟩, true))) ∧
    (¬ ((((p.color &&& cm.alpha) >>> ar : Nat) : ℚ)
          / ((cm.alpha >>> ar : Nat) : ℚ) > 1 / 2) →
      Writer.display_img_32rgba g x y (.ok ⟨some cm, [p]⟩) = some g) := by
  have hunfold : Writer.display_img_32rgba g x y (.ok ⟨some cm, [p]⟩)
      = some (blit32_pixel cm rr gr br ar (cm.alpha >>> ar) x y g p) := by
    simp only [Writer.display_img_32rgba, hr, hgr, hb, ha, List.foldl_cons,
      List.foldl_nil]
  constructor
  · intro halpha
    rw [hunfold]
    unfold blit32_pixel
    rw [if_pos halpha]
    unfold Writer.display_pixel_safe
    rw [if_pos ⟨hx, hy⟩]
  · intro halpha
    rw [hunfold]
    unfold blit32_pixel
    rw [if_neg halpha]

/-- Witness for C7: decoding the raw sample 0xFFFF0000 under the default
masks (alpha lane 0xFF ⇒ alpha = 1 > 1/2) paints `(255,0,0)` opaque at the
destination cell. -/
theorem display_img_32rgba_alpha_spec_witness :
    Writer.display_img_32rgba (fun _ _ => (DEFAULT_RGB888, false)) 0 0
        (.ok ⟨some default_channel_masks, [⟨⟨0, 0⟩, 0xFFFF0000⟩]⟩)
      = some (setAt (fun _ _ => (DEFAULT_RGB888, false)) 0 0 (⟨255, 0, 0⟩, true)) :=
  (display_img_32rgba_alpha_spec (fun _ _ => (DEFAULT_RGB888, false)) 0 0
    default_channel_masks ⟨⟨0, 0⟩, 0xFFFF0000⟩ 16 0xFF 8 0xFF 0 0xFF 24 0xFF
    (by decide) (by decide) (by decide) (by decide) (by decide) (by decide)).1
    (by
      show ((255 : Nat) : ℚ) / ((255 : Nat) : ℚ) > 1 / 2
      norm_num)

/-- The shift loop never terminates on a zero mask, for any fuel. -/
theorem mask_shift_loop_zero : ∀ (fuel r : Nat),
    mask_shift_loop fuel r 0 = none := by
  intro fuel
  induction fuel with
  | zero =>
    intro r
    simp [mask_shift_loop]
  | succ f ih =>
    intro r
    simp only [mask_shift_loop]
    rw [if_pos (by decide)]
    exact ih (r + 1)

/-- The shift loop terminates on any nonzero mask, given fuel at least the
mask's bit length. -/
theorem mask_shift_loop_total : ∀ (f m r : Nat), m ≠ 0 → m ≤ 2 ^ f →
    (mask_shift_loop f r m).isSome = true := by
  intro f
  induction f with
  | zero =>
    intro m r hm hle
    have hm1 : m = 1 := by
      have : (2 : Nat) ^ 0 = 1 := rfl
      omega
    rw [hm1]
    simp [mask_shift_loop]
  | succ f ih =>
    intro m r hm hle
    by_cases h1 : m &&& 1 = 0
    · have hmod : m % 2 = 0 := by
        rw [← Nat.and_one_is_mod]
        exact h1
      simp only [mask_shift_loop]
      rw [if_pos h1, Nat.shiftRight_one]
      refine ih (m / 2) (r + 1) (by omega) ?_
      have hpow : (2 : Nat) ^ (f + 1) = 2 ^ f * 2 := pow_succ 2 f
      omega
    · simp only [mask_shift_loop]
      rw [if_neg h1]
      rfl

/-- C9: the shift-derivation loop terminates (for some fuel) exactly on
nonzero masks; consequently `display_img_32rgba` on a successfully parsed
bitmap whose header declares a zero red mask never terminates (the embedding
returns `none` — the first loop diverges), while it is total whenever all
four declared masks are nonzero 32-bit values. -/
theorem mask_shift_loop_termination_spec :
    (∀ m : Nat, (∃ fuel r0, (mask_shift_loop fuel r0 m).isSome = true) ↔ m ≠ 0) ∧
    (∀ (g : GridF) (x y : Nat) (d : RawBmpData) (cm : ChannelMasks),
      d.channel_masks = some cm → cm.red = 0 →
      Writer.display_img_32rgba g x y (.ok d) = none) ∧
    (∀ (g : GridF) (x y : Nat) (d : RawBmpData) (cm : ChannelMasks),
      d.channel_masks = some cm →
      cm.red ≠ 0 → cm.red < 4294967296 →
      cm.green ≠ 0 → cm.green < 4294967296 →
      cm.blue ≠ 0 → cm.blue < 4294967296 →
      cm.alpha ≠ 0 → cm.alpha < 4294967296 →
      (Writer.display_img_32rgba g x y (.ok d)).isSome = true) := by
  have hfits : ∀ m : Nat, m < 4294967296 → m ≤ 2 ^ 32 := by
    intro m hm
    have : (2 : Nat) ^ 32 = 4294967296 := by norm_num
    omega
  refine ⟨fun m => ⟨fun hex => ?_, fun hm => ?_⟩, fun g x y d cm hcm hred => ?_,
    fun g x y d cm hcm h1 h2 h3 h4 h5 h6 h7 h8 => ?_⟩
  · intro hm0
    obtain ⟨fuel, r0, hs⟩ := hex
    rw [hm0, mask_shift_loop_zero] at hs
    exact Bool.false_ne_true hs
  · exact ⟨m, 0, mask_shift_loop_total m m 0 hm (le_of_lt (Nat.lt_two_pow m))⟩
  · simp only [Writer.display_img_32rgba, hcm, hred, mask_shift_loop_zero]
  · simp only [Writer.display_img_32rgba, hcm]
    obtain ⟨⟨rr, rm⟩, hr⟩ := Option.isSome_iff_exists.1
      (mask_shift_loop_total 32 cm.red 0 h1 (hfits _ h2))
    obtain ⟨⟨gr, gm⟩, hgr⟩ := Option.isSome_iff_exists.1
      (mask_shift_loop_total 32 cm.green 0 h3 (hfits _ h4))
    obtain ⟨⟨br, bm⟩, hb⟩ := Option.isSome_iff_exists.1
      (mask_shift_loop_total 32 cm.blue 0 h5 (hfits _ h6))
    obtain ⟨⟨ar, am⟩, ha⟩ := Option.isSome_iff_exists.1
      (mask_shift_loop_total 32 cm.alpha 0 h7 (hfits _ h8))
    rw [hr, hgr, hb, ha]
    rfl

/-- Witness for C9: the loop terminates on the nonzero mask 4 (with fuel 4),
by the termination criterion. -/
theorem mask_shift_loop_termination_spec_witness :
    ∃ fuel r0, (mask_shift_loop fuel r0 4).isSome = true :=
  (mask_shift_loop_termination_spec.1 4).mpr (by decide)

/-- `display_pixel_safe` never changes a cell outside the grid. -/
theorem display_pixel_safe_oob (g : GridF) (x y : Nat) (c : Rgb888)
    (i j : Nat) (h : HEIGHT ≤ i ∨ WIDTH ≤ j) :
    Writer.display_pixel_safe g x y c i j = g i j := by
  unfold Writer.display_pixel_safe
  by_cases hb : x < HEIGHT ∧ y < WIDTH
  · rw [if_pos hb]
    unfold setAt
    rw [if_neg (by omega)]
  · rw [if_neg hb]

/-- The 32-bit blit's pixel fold never changes a cell outside the grid: every
write goes through `display_pixel_safe`. -/
theorem blit32_fold_oob (cm : ChannelMasks) (rr gr br ar asize x y : Nat) :
    ∀ (ps : List RawPixel) (g : GridF) (i j : Nat), (HEIGHT ≤ i ∨ WIDTH ≤ j) →
      (ps.foldl (blit32_pixel cm rr gr br ar asize x y) g) i j = g i j := by
  intro ps
  induction ps with
  | nil =>
    intro g i j _
    rfl
  | cons p ps ih =>
    intro g i j h
    rw [List.foldl_cons, ih _ i j h]
    unfold blit32_pixel
    by_cases ha : (((p.color &&& cm.alpha) >>> ar : Nat) : ℚ) / (asize : ℚ)
        > 1 / 2
    · rw [if_pos ha]
      exact display_pixel_safe_oob g _ _ _ i j h
    · rw [if_neg ha]

/-- The glyph blit's sample fold never changes a cell outside the grid. -/
theorem font_fold_oob (x_pos y_pos x_offset bbox_min_x : Nat) (c : Rgb888) :
    ∀ (samples : List FontSample) (g : GridF) (i j : Nat),
      (HEIGHT ≤ i ∨ WIDTH ≤ j) →
      Writer.display_font g x_pos y_pos x_offset bbox_min_x c samples i j
        = g i j := by
  intro samples
  induction samples with
  | nil =>
    intro g i j _
    rfl
  | cons s samples ih =>
    intro g i j h
    unfold Writer.display_font
    rw [List.foldl_cons]
    have htail := ih (if s.v > 1 / 2 then
      Writer.display_pixel_safe g (x_offset + x_pos + s.x)
        (y_pos + s.y + bbox_min_x) c else g) i j h
    unfold Writer.display_font at htail
    rw [htail]
    by_cases hv : s.v > 1 / 2
    · rw [if_pos hv]
      exact display_pixel_safe_oob g _ _ _ i j h
    · rw [if_neg hv]

/-- C10: `display_pixel_safe` writes only when `x < HEIGHT ∧ y < WIDTH` (an
out-of-range call is a complete no-op, and no call ever changes an
out-of-grid cell); hence the 32-bit image blit and the glyph blit, which
write exclusively through it, never touch a cell outside the HEIGHT×WIDTH
grid, for any offsets and input.  The 24-bit blit `display_img`, by contrast,
writes unchecked: blitting at row offset `HEIGHT` modifies the out-of-grid
cell `(HEIGHT, 0)`. -/
theorem display_pixel_safe_bounds_spec :
    (∀ (g : GridF) (x y : Nat) (c : Rgb888), (HEIGHT ≤ x ∨ WIDTH ≤ y) →
      Writer.display_pixel_safe g x y c = g) ∧
    (∀ (g : GridF) (x y : Nat) (c : Rgb888) (i j : Nat),
      (HEIGHT ≤ i ∨ WIDTH ≤ j) →
      Writer.display_pixel_safe g x y c i j = g i j) ∧
    (∀ (g : GridF) (x y : Nat) (parsed : Except Nat RawBmpData) (g2 : GridF),
      Writer.display_img_32rgba g x y parsed = some g2 →
      ∀ i j, (HEIGHT ≤ i ∨ WIDTH ≤ j) → g2 i j = g i j) ∧
    (∀ (g : GridF) (x_pos y_pos x_offset bbox_min_x : Nat) (c : Rgb888)
      (samples : List FontSample) (i j : Nat), (HEIGHT ≤ i ∨ WIDTH ≤ j) →
      Writer.display_font g x_pos y_pos x_offset bbox_min_x c samples i j
        = g i j) ∧
    ((Writer.display_img (fun _ _ => (DEFAULT_RGB888, false)) HEIGHT 0
        (.ok [⟨⟨0, 0⟩, RED⟩])).1 HEIGHT 0 = (RED, true) ∧
      ((DEFAULT_RGB888, false) : Cell) ≠ (RED, true)) := by
  refine ⟨fun g x y c h => ?_, fun g x y c i j h =>
      display_pixel_safe_oob g x y c i j h,
    fun g x y parsed g2 hsome i j h => ?_,
    fun g x_pos y_pos x_offset bbox_min_x c samples i j h =>
      font_fold_oob x_pos y_pos x_offset bbox_min_x c samples g i j h,
    by decide, by decide⟩
  · unfold Writer.display_pixel_safe
    rw [if_neg (by omega)]
  · match parsed with
    | .error e =>
      simp only [Writer.display_img_32rgba] at hsome
      have hg2 : g = g2 := Option.some.inj hsome
      rw [← hg2]
    | .ok bmp =>
      simp only [Writer.display_img_32rgba] at hsome
      rcases hr : mask_shift_loop 32 0
          (match bmp.channel_masks with
            | none => default_channel_masks
            | some cm => cm).red with _ | ⟨rr, rm⟩ <;>
        rw [hr] at hsome
      · exact absurd hsome (by simp)
      rcases hgr : mask_shift_loop 32 0
          (match bmp.channel_masks with
            | none => default_channel_masks
            | some cm => cm).green with _ | ⟨gr, gm⟩ <;>
        rw [hgr] at hsome
      · exact absurd hsome (by simp)
      rcases hb : mask_shift_loop 32 0
          (match bmp.channel_masks with
            | none => default_channel_masks
            | some cm => cm).blue with _ | ⟨br, bm⟩ <;>
        rw [hb] at hsome
      · exact absurd hsome (by simp)
      rcases ha : mask_shift_loop 32 0
          (match bmp.channel_masks with
            | none => default_channel_masks
            | some cm => cm).alpha with _ | ⟨ar, am⟩ <;>
        rw [ha] at hsome
      · exact absurd hsome (by simp)
      have hg2 := Option.some.inj hsome
      rw [← hg2]
      exact blit32_fold_oob _ rr gr br ar _ x y bmp.pixels g i j h

/-- Witness for C10: an out-of-range checked write (row 600 = HEIGHT) leaves
the cell untouched. -/
theorem display_pixel_safe_bounds_spec_witness :
    Writer.display_pixel_safe (fun _ _ => (DEFAULT_RGB888, false)) 600 0 RED
        600 0
      = (fun _ _ => ((DEFAULT_RGB888, false) : Cell)) 600 0 :=
  display_pixel_safe_bounds_spec.2.1 (fun _ _ => (DEFAULT_RGB888, false))
    600 0 RED 600 0 (by decide)

end BlogOS
